import Mathlib

set_option linter.unusedVariables false

/-!
Verification of the ContainerPub podman client
(`src/tools/podman_client/podman_client.py`) against its natural-language
specification.  The Python code is shallowly embedded: each Python function
of interest becomes a Lean definition over explicit data models of the
engine's observable behaviour; machine integers are `Int`, Python floats in
the one place they occur (`cpus`) are modelled exactly as rationals, and
fallible calls are modelled by explicit outcome fields of the engine model.
-/

namespace ContainerPub

/-!
## Nested-value data model

Python values flowing through `get_nested_value` / `format_inspect` are
JSON-shaped: strings, numbers, booleans, `None`, dicts, lists.  Dicts are
insertion-ordered association lists with unique keys (a Python `dict` can
never hold a duplicate key); numbers are modelled as integers, which is all
the claims need.
-/

inductive Value where
  | str (s : String)
  | int (n : Int)
  | bool (b : Bool)
  | null
  | obj (fields : List (String × Value))
  | arr (elems : List Value)

/-- Python truthiness of an `Optional[bool]` value (`None` is falsy). -/
def pyTruthy : Option Bool → Bool
  | none => false
  | some b => b

/-- ASCII lowercasing of one character, the fragment of Python's `str.lower`
the two implementations agree on. -/
def lowChar (c : Char) : Char :=
  if 65 ≤ c.toNat ∧ c.toNat ≤ 90 then Char.ofNat (c.toNat + 32) else c

/-- Python `str.lower`, restricted to ASCII case mapping. -/
def pyLower (s : String) : String := String.mk (s.data.map lowChar)

/-!
## `get_nested_value` (podman_client.py lines 411-432)

```python
def get_nested_value(self, data, path):
    keys = path.strip('.').split('.')
    current = data
    for key in keys:
        if not isinstance(current, dict):
            return None
        if key in current:
            current = current[key]
        else:
            mapping = \x7bk.lower(): k for k in current.keys()\x7d
            target_key = mapping.get(key.lower())
            if target_key:
                current = current[target_key]
            else:
                return None
    return current
```
-/

/-- Python `dict` lookup `current[key]` / membership `key in current`, on the
association-list model: the entry stored under `key`, if any. -/
def lookupExact (fields : List (String × Value)) (key : String) : Option Value :=
  (fields.find? (fun kv => kv.1 = key)).map (fun kv => kv.2)

/-- The dict comprehension `\x7bk.lower(): k for k in current.keys()\x7d` followed by
`.get(lkey)`: among the keys whose lowercasing is `lkey`, the comprehension
keeps the last one written (later keys overwrite earlier ones), so the lookup
returns the last such key in insertion order. -/
def lowerMapGet (fields : List (String × Value)) (lkey : String) : Option String :=
  fields.foldl (fun acc kv => if pyLower kv.1 = lkey then some kv.1 else acc) none

/-- One iteration of the `for key in keys` loop body: exact match first, then
the case-insensitive fallback; `if target_key:` is Python truthiness on a
string, so an empty-string target key is treated as no match. -/
def nestedStep (current : Value) (key : String) : Option Value :=
  match current with
  | Value.obj fields =>
    match lookupExact fields key with
    | some v => some v
    | none =>
      match lowerMapGet fields (pyLower key) with
      | some targetKey =>
        if targetKey = "" then none else lookupExact fields targetKey
      | none => none
  | _ => none

/-- The whole loop: walk the segments; a failed segment aborts with `None`
(the Python `return None`), and once all segments are consumed the current
value is returned. -/
def nestedWalk : Value → List String → Option Value
  | current, [] => some current
  | current, key :: rest =>
    match nestedStep current key with
    | some nxt => nestedWalk nxt rest
    | none => none

/-- Python `str.strip('.')`: remove leading and trailing `'.'` characters. -/
def stripDots (cs : List Char) : List Char :=
  ((cs.dropWhile (fun c => c = '.')).reverse.dropWhile (fun c => c = '.')).reverse

/-- Python `str.split('.')` on a character list: splitting the empty string
yields `[""]`, and adjacent separators yield empty segments, exactly as in
Python. -/
def splitDots : List Char → List (List Char)
  | [] => [[]]
  | c :: cs =>
    match splitDots cs with
    | [] => [[]]
    | g :: gs => if c = '.' then [] :: g :: gs else (c :: g) :: gs

/-- `path.strip('.').split('.')` as a list of segment strings. -/
def pathSegments (path : String) : List String :=
  (splitDots (stripDots path.toList)).map (fun cs => String.mk cs)

/-- `get_nested_value` (lines 411-432). -/
def get_nested_value (data : Value) (path : String) : Option Value :=
  nestedWalk data (pathSegments path)

/-- Resolution using only exact, case-sensitive matching at every level.
This is the spec's notion of a path that "exactly matches case-sensitively";
it is compared against the implementation's walk, which adds the
case-insensitive fallback. -/
def exactWalk : Value → List String → Option Value
  | current, [] => some current
  | current, key :: rest =>
    match current with
    | Value.obj fields =>
      match lookupExact fields key with
      | some v => exactWalk v rest
      | none => none
    | _ => none

theorem nestedStep_of_exact {fields : List (String × Value)} {key : String}
    {v : Value} (h : lookupExact fields key = some v) :
    nestedStep (Value.obj fields) key = some v := by
  simp [nestedStep, h]

theorem nestedWalk_of_exactWalk (data : Value) (segs : List String) (v : Value)
    (h : exactWalk data segs = some v) : nestedWalk data segs = some v := by
  induction segs generalizing data with
  | nil => simpa [exactWalk, nestedWalk] using h
  | cons key rest ih =>
    cases data with
    | obj fields =>
      cases hx : lookupExact fields key with
      | none => simp [exactWalk, hx] at h
      | some w =>
        rw [exactWalk] at h
        rw [hx] at h
        rw [nestedWalk, nestedStep_of_exact hx]
        exact ih w h
    | str s => simp [exactWalk] at h
    | int n => simp [exactWalk] at h
    | bool b => simp [exactWalk] at h
    | null => simp [exactWalk] at h
    | arr es => simp [exactWalk] at h

/-- If no key of the level matches the segment even case-insensitively, the
fallback map lookup misses. -/
theorem lowerMapGet_eq_none {fields : List (String × Value)} {lkey : String}
    (h : ∀ kv ∈ fields, pyLower kv.1 ≠ lkey) : lowerMapGet fields lkey = none := by
  induction fields with
  | nil => rfl
  | cons kv rest ih =>
    have hk : pyLower kv.1 ≠ lkey := h kv (by simp)
    have hrest : ∀ x ∈ rest, pyLower x.1 ≠ lkey := fun x hx => h x (by simp [hx])
    simp only [lowerMapGet, List.foldl_cons, if_neg hk]
    exact ih hrest

/-- The fold of `lowerMapGet` keeps its accumulator over entries that do not
match the lowered key. -/
theorem lowerMapGet_foldl_keep {lkey : String} (rest : List (String × Value))
    (acc : Option String) (h : ∀ kv ∈ rest, pyLower kv.1 ≠ lkey) :
    rest.foldl (fun acc kv => if pyLower kv.1 = lkey then some kv.1 else acc) acc
      = acc := by
  induction rest generalizing acc with
  | nil => rfl
  | cons kv tail ih =>
    have hk : pyLower kv.1 ≠ lkey := h kv (by simp)
    have htail : ∀ x ∈ tail, pyLower x.1 ≠ lkey := fun x hx => h x (by simp [hx])
    simp only [List.foldl_cons, if_neg hk]
    exact ih acc htail

/-- When exactly one entry of the level matches the segment case-insensitively,
the comprehension-backed lookup returns that entry's key. -/
theorem lowerMapGet_of_unique {fields : List (String × Value)} {key : String}
    {k : String} {v : Value}
    (h : fields.filter (fun kv => pyLower kv.1 = pyLower key) = [(k, v)]) :
    lowerMapGet fields (pyLower key) = some k := by
  induction fields with
  | nil => simp at h
  | cons a rest ih =>
    by_cases ha : pyLower a.1 = pyLower key
    · rw [List.filter_cons_of_pos (by simpa using ha)] at h
      have hav : a = (k, v) := by
        have := congrArg (fun l => l.head?) h
        simpa using this
      have hrest : rest.filter (fun kv => pyLower kv.1 = pyLower key) = [] := by
        have := congrArg (fun l => l.tail) h
        simpa using this
      have hnomatch : ∀ kv ∈ rest, pyLower kv.1 ≠ pyLower key := by
        intro kv hkv
        exact fun hc => by
          have : kv ∈ rest.filter (fun kv => pyLower kv.1 = pyLower key) :=
            List.mem_filter.mpr ⟨hkv, by simpa using hc⟩
          simp [hrest] at this
      simp only [lowerMapGet, List.foldl_cons, if_pos ha]
      rw [lowerMapGet_foldl_keep rest (some a.1) hnomatch, hav]
    · rw [List.filter_cons_of_neg (by simpa using ha)] at h
      simp only [lowerMapGet, List.foldl_cons, if_neg ha]
      exact ih h

/-- When exactly one entry of the level matches case-insensitively, the exact
lookup of that entry's key returns its stored value. -/
theorem lookupExact_of_unique {fields : List (String × Value)} {key : String}
    {k : String} {v : Value}
    (h : fields.filter (fun kv => pyLower kv.1 = pyLower key) = [(k, v)]) :
    lookupExact fields k = some v := by
  have hkk : pyLower k = pyLower key := by
    have : (k, v) ∈ fields.filter (fun kv => pyLower kv.1 = pyLower key) := by
      simp [h]
    simpa using (List.mem_filter.mp this).2
  induction fields with
  | nil => simp at h
  | cons a rest ih =>
    by_cases ha : pyLower a.1 = pyLower key
    · rw [List.filter_cons_of_pos (by simpa using ha)] at h
      have hav : a = (k, v) := by
        have := congrArg (fun l => l.head?) h
        simpa using this
      subst hav
      simp [lookupExact, List.find?_cons]
    · rw [List.filter_cons_of_neg (by simpa using ha)] at h
      have hak : a.1 ≠ k := fun hc => ha (by rw [hc]; exact hkk)
      have : lookupExact rest k = some v := ih h
      simpa [lookupExact, List.find?_cons, hak] using this

/--
C6: `get_nested_value` walks the mapping segment by segment, trying an exact
(case-sensitive) key match first at each level, falling back to a
case-insensitive match over that level's keys only when the exact key is
absent, and returning not-found for the whole path (no partial result) as
soon as any segment fails to match; when the path matches exactly
case-sensitively, it returns the exact value stored at that path.  The five
conjuncts: (1) an exact case-sensitive full-path match is returned as is;
(2) at one level, a present exact key wins (even when different-cased keys
exist); (3) when the exact key is absent and exactly one nonempty key of the
level matches case-insensitively, that key's value is taken; (4) when the
exact key is absent and no key matches case-insensitively, the level fails;
(5) a failed segment makes the whole walk return not-found.
-/
theorem c6_get_nested_value_resolution :
    (∀ data path v, exactWalk data (pathSegments path) = some v →
        get_nested_value data path = some v)
  ∧ (∀ fields key v, lookupExact fields key = some v →
        nestedStep (Value.obj fields) key = some v)
  ∧ (∀ fields key k v, lookupExact fields key = none →
        fields.filter (fun kv => pyLower kv.1 = pyLower key) = [(k, v)] →
        k ≠ "" →
        nestedStep (Value.obj fields) key = some v)
  ∧ (∀ fields key, lookupExact fields key = none →
        (∀ kv ∈ fields, pyLower kv.1 ≠ pyLower key) →
        nestedStep (Value.obj fields) key = none)
  ∧ (∀ current key rest, nestedStep current key = none →
        nestedWalk current (key :: rest) = none) := by
  refine ⟨?_, ?_, ?_, ?_, ?_⟩
  · intro data path v h
    exact nestedWalk_of_exactWalk data (pathSegments path) v h
  · intro fields key v h
    exact nestedStep_of_exact h
  · intro fields key k v hexact hfilter hk
    have h1 := lowerMapGet_of_unique hfilter
    have h2 := lookupExact_of_unique hfilter
    simp [nestedStep, hexact, h1, hk, h2]
  · intro fields key hexact hnone
    have h1 := lowerMapGet_eq_none hnone
    simp [nestedStep, hexact, h1]
  · intro current key rest h
    simp [nestedWalk, h]

/-- Witness for C6: the conjuncts of `c6_get_nested_value_resolution` applied
at concrete inputs, discharging every hypothesis there.  The data is the
spec's own example `\x7b"Host": \x7b"Arch": "amd64"\x7d\x7d`: a present-exact path, a
present-only-as-different-case level, a no-match level, and a failing first
segment. -/
theorem c6_witness :
    get_nested_value (Value.obj [("Host", Value.obj [("Arch", Value.str "amd64")])])
        "Host.Arch" = some (Value.str "amd64")
  ∧ nestedStep (Value.obj [("host", Value.int 1), ("Host", Value.int 2)]) "Host"
      = some (Value.int 2)
  ∧ nestedStep (Value.obj [("Host", Value.int 2)]) "host" = some (Value.int 2)
  ∧ nestedStep (Value.obj [("Other", Value.int 3)]) "host" = none
  ∧ nestedWalk (Value.obj [("Other", Value.int 3)]) ["host", "arch"] = none := by
  refine ⟨?_, ?_, ?_, ?_, ?_⟩
  · exact c6_get_nested_value_resolution.1 _ "Host.Arch" _ (by rfl)
  · exact c6_get_nested_value_resolution.2.1 _ "Host" _ (by rfl)
  · exact c6_get_nested_value_resolution.2.2.1 _ "host" "Host" _ (by rfl) (by rfl)
      (by decide)
  · exact c6_get_nested_value_resolution.2.2.2.1 _ "host" (by rfl) (by decide)
  · exact c6_get_nested_value_resolution.2.2.2.2 _ "host" ["arch"] (by rfl)

/-!
## `format_inspect` (podman_client.py lines 434-446)

```python
def format_inspect(self, attrs, format_str):
    patterns = re.findall(r'\x7b\x7b\s*\.(.*?)\s*\x7d\x7d' with escaped braces, format_str)
    output = format_str
    for p in patterns:
        value = self.get_nested_value(attrs, p)
        val_str = json.dumps(value) if isinstance(value, (list, dict)) else str(value)
        output = output.replace("\x7b\x7b." + p + "\x7d\x7d", val_str)
    return output
```

The regex scan is embedded deterministically: after the two opening braces,
the greedy `\s*` followed by the mandatory `.` matches exactly when the
first non-whitespace character is `.` (whitespace never backtracks into a
dot), the lazy `(.*?)` tries the shortest capture first and cannot cross a
newline, and the trailing `\s*` followed by the two closing braces again
commits to skipping the whole whitespace run.  `re.findall` scans left to
right, restarting one character further on a failed attempt and after the
match on a successful one.
-/

/-- Python's `\s` on ASCII text: space, tab, newline, carriage return,
form feed, vertical tab. -/
def isPySpace (c : Char) : Bool :=
  c = ' ' ∨ c = '\t' ∨ c = '\n' ∨ c = '\r' ∨ c = '\x0b' ∨ c = '\x0c'

/-- The greedy `\s*`: skip the whole whitespace run. -/
def dropSpaces (t : List Char) : List Char := t.dropWhile isPySpace

theorem dropSpaces_length_le (t : List Char) : (dropSpaces t).length ≤ t.length := by
  induction t with
  | nil => simp [dropSpaces]
  | cons c cs ih =>
    by_cases h : isPySpace c
    · simp only [dropSpaces, List.dropWhile_cons, h, if_true]
      exact Nat.le_trans ih (by simp)
    · simp [dropSpaces, List.dropWhile_cons, h]

/-- The closing `\s*\x7d\x7d` of the placeholder pattern: skip whitespace, then
require the two closing braces; returns the text after the match. -/
def closerAt (t : List Char) : Option (List Char) :=
  match dropSpaces t with
  | '\x7d' :: '\x7d' :: rest => some rest
  | _ => none

theorem closerAt_length {t rest : List Char} (h : closerAt t = some rest) :
    rest.length + 2 ≤ t.length := by
  unfold closerAt at h
  cases hd : dropSpaces t with
  | nil => rw [hd] at h; simp at h
  | cons a l1 =>
    cases l1 with
    | nil =>
      rw [hd] at h
      by_cases ha : a = '\x7d' <;> simp [ha] at h
    | cons b l2 =>
      rw [hd] at h
      by_cases ha : a = '\x7d'
      · by_cases hb : b = '\x7d'
        · subst ha hb
          simp at h
          subst h
          have := dropSpaces_length_le t
          rw [hd] at this
          simpa using this
        · simp [ha, hb] at h
      · simp [ha] at h

/-- The lazy `(.*?)\s*\x7d\x7d`: try the empty capture first, then extend one
character at a time; the dot of the regex never matches a newline.  Returns
the capture and the text after the whole match. -/
def lazyCapture (t : List Char) : Option (List Char × List Char) :=
  match closerAt t with
  | some rest => some ([], rest)
  | none =>
    match t with
    | [] => none
    | c :: t' =>
      if c = '\n' then none
      else
        match lazyCapture t' with
        | some (cap, rest) => some (c :: cap, rest)
        | none => none

theorem lazyCapture_length {t : List Char} {cap rest : List Char}
    (h : lazyCapture t = some (cap, rest)) : rest.length ≤ t.length := by
  induction t generalizing cap rest with
  | nil =>
    rw [lazyCapture] at h
    cases hc : closerAt [] with
    | some r =>
      have := closerAt_length hc
      simp at this
    | none => rw [hc] at h; simp at h
  | cons c t' ih =>
    rw [lazyCapture] at h
    cases hc : closerAt (c :: t') with
    | some r =>
      rw [hc] at h
      simp at h
      obtain ⟨-, hr⟩ := h
      subst hr
      have := closerAt_length hc
      omega
    | none =>
      rw [hc] at h
      by_cases hn : c = '\n'
      · simp [hn] at h
      · simp only [hn, if_false, ite_false] at h
        cases hrec : lazyCapture t' with
        | none => rw [hrec] at h; simp at h
        | some pr =>
          rw [hrec] at h
          obtain ⟨cap', rest'⟩ := pr
          simp at h
          obtain ⟨-, hr⟩ := h
          subst hr
          have := ih (by rw [hrec])
          simpa using Nat.le_succ_of_le this

/-- A single match attempt of the placeholder body, entered just after the
two opening braces: greedy whitespace, the mandatory dot, then the lazy
capture. -/
def matchBody (s : List Char) : Option (List Char × List Char) :=
  match dropSpaces s with
  | '.' :: t => lazyCapture t
  | _ => none

theorem matchBody_length {s cap rest : List Char}
    (h : matchBody s = some (cap, rest)) : rest.length < s.length := by
  unfold matchBody at h
  cases hd : dropSpaces s with
  | nil => rw [hd] at h; simp at h
  | cons a t =>
    rw [hd] at h
    by_cases ha : a = '.'
    · subst ha
      simp at h
      have h1 := lazyCapture_length h
      have h2 := dropSpaces_length_le s
      rw [hd] at h2
      simp at h2
      omega
    · simp [ha] at h

/-- `re.findall` of the placeholder pattern over the template: at each
position, a literal `\x7b\x7b` starts a match attempt; on success the capture is
recorded and scanning resumes after the match, on failure scanning resumes
one character further.  Every step both consumes at least one character and
one unit of fuel, so fuel equal to the text's length (as passed by
`scanPlaceholders`) is never exhausted; `scanAux_fuel_high` proves the fuel
choice irrelevant. -/
def scanAux : Nat → List Char → List String
  | 0, _ => []
  | _ + 1, [] => []
  | fuel + 1, c1 :: rest1 =>
    match rest1 with
    | c2 :: body =>
      if c1 = '\x7b' ∧ c2 = '\x7b' then
        match matchBody body with
        | some (cap, rest) => String.mk cap :: scanAux fuel rest
        | none => scanAux fuel rest1
      else scanAux fuel rest1
    | [] => []

theorem scanAux_nil (f : Nat) : scanAux f [] = [] := by
  cases f <;> rfl

/-- Any fuel at least the text's length computes the same scan: the fuel in
`scanPlaceholders` is an implementation artifact, not part of the modelled
behaviour. -/
theorem scanAux_fuel_high :
    ∀ (n : Nat) (t : List Char), t.length ≤ n → ∀ f g, t.length ≤ f →
      t.length ≤ g → scanAux f t = scanAux g t := by
  intro n
  induction n with
  | zero =>
    intro t ht f g hf hg
    have : t = [] := List.length_eq_zero.mp (Nat.le_zero.mp ht)
    subst this
    rw [scanAux_nil, scanAux_nil]
  | succ n ih =>
    intro t ht f g hf hg
    match t with
    | [] => rw [scanAux_nil, scanAux_nil]
    | [c] =>
      obtain ⟨f', rfl⟩ : ∃ f', f = f' + 1 :=
        ⟨f - 1, by simp at hf; omega⟩
      obtain ⟨g', rfl⟩ : ∃ g', g = g' + 1 :=
        ⟨g - 1, by simp at hg; omega⟩
      rfl
    | c1 :: c2 :: body =>
      simp only [List.length_cons] at ht hf hg
      obtain ⟨f', rfl⟩ : ∃ f', f = f' + 1 := ⟨f - 1, by omega⟩
      obtain ⟨g', rfl⟩ : ∃ g', g = g' + 1 := ⟨g - 1, by omega⟩
      by_cases hb : c1 = '\x7b' ∧ c2 = '\x7b'
      · obtain ⟨rfl, rfl⟩ := hb
        cases hm : matchBody body with
        | some pr =>
          obtain ⟨cap, rest⟩ := pr
          have hlen := matchBody_length hm
          have h1 : rest.length ≤ n := by omega
          have h2 : rest.length ≤ f' := by omega
          have h3 : rest.length ≤ g' := by omega
          simp only [scanAux, hm, and_self, if_true]
          rw [ih rest h1 f' g' h2 h3]
        | none =>
          have h1 : ('\x7b' :: body).length ≤ n := by simp; omega
          have h2 : ('\x7b' :: body).length ≤ f' := by simp; omega
          have h3 : ('\x7b' :: body).length ≤ g' := by simp; omega
          simp only [scanAux, hm, and_self, if_true]
          exact ih _ h1 f' g' h2 h3
      · simp only [scanAux]
        rw [if_neg hb, if_neg hb]
        have h1 : (c2 :: body).length ≤ n := by simp; omega
        have h2 : (c2 :: body).length ≤ f' := by simp; omega
        have h3 : (c2 :: body).length ≤ g' := by simp; omega
        exact ih (c2 :: body) h1 f' g' h2 h3

/-- The full `re.findall(r'...', format_str)` scan. -/
def scanPlaceholders (t : List Char) : List String := scanAux t.length t

/-- A lowercase hexadecimal digit, as `json.dumps` emits in `\uXXXX`. -/
def hexDigit (n : Nat) : Char :=
  if n < 10 then Char.ofNat (48 + n) else Char.ofNat (87 + n)

/-- Four lowercase hexadecimal digits. -/
def hex4 (n : Nat) : List Char :=
  [hexDigit (n / 4096 % 16), hexDigit (n / 256 % 16),
   hexDigit (n / 16 % 16), hexDigit (n % 16)]

/-- The escaping of one character inside a `json.dumps` string with the
default `ensure_ascii=True`: `"` and `\` have two-character escapes, the
usual control characters have named escapes, other characters below 0x20 and
all characters above 0x7e become `\uXXXX` (with a surrogate pair above
0xFFFF), and the printable ASCII range passes through. -/
def jsonEscapeChar (c : Char) : List Char :=
  if c = '"' then ['\\', '"']
  else if c = '\\' then ['\\', '\\']
  else if c = '\n' then ['\\', 'n']
  else if c = '\r' then ['\\', 'r']
  else if c = '\t' then ['\\', 't']
  else if c = '\x08' then ['\\', 'b']
  else if c = '\x0c' then ['\\', 'f']
  else if c.toNat < 32 ∨ 126 < c.toNat then
    if c.toNat ≤ 65535 then '\\' :: 'u' :: hex4 c.toNat
    else
      ('\\' :: 'u' :: hex4 (55296 + (c.toNat - 65536) / 1024)) ++
      ('\\' :: 'u' :: hex4 (56320 + (c.toNat - 65536) % 1024))
  else [c]

/-- A `json.dumps` string literal. -/
def jsonQuote (s : String) : String :=
  String.mk ('"' :: s.data.flatMap jsonEscapeChar ++ ['"'])

mutual

/-- `json.dumps(value)` with default arguments: item separator `", "`, key
separator `": "`, lowercase keywords, `ensure_ascii` string escaping. -/
def jsonDumps : Value → String
  | Value.str s => jsonQuote s
  | Value.int n => toString n
  | Value.bool b => if b then "true" else "false"
  | Value.null => "null"
  | Value.obj fields => "\x7b" ++ jsonFields fields ++ "\x7d"
  | Value.arr es => "[" ++ jsonElems es ++ "]"

/-- The comma-joined members of a serialized JSON object. -/
def jsonFields : List (String × Value) → String
  | [] => ""
  | [kv] => jsonQuote kv.1 ++ ": " ++ jsonDumps kv.2
  | kv :: rest => jsonQuote kv.1 ++ ": " ++ jsonDumps kv.2 ++ ", " ++ jsonFields rest

/-- The comma-joined items of a serialized JSON array. -/
def jsonElems : List Value → String
  | [] => ""
  | [v] => jsonDumps v
  | v :: rest => jsonDumps v ++ ", " ++ jsonElems rest

end

/-- The textual form of a resolved value:
`json.dumps(value) if isinstance(value, (list, dict)) else str(value)`.
A failed resolution is Python `None` and renders as `str(None) = "None"`, a
stored JSON null is also Python `None`, scalars use `str`. -/
def renderValue : Option Value → String
  | none => "None"
  | some (Value.obj fields) => jsonDumps (Value.obj fields)
  | some (Value.arr es) => jsonDumps (Value.arr es)
  | some (Value.str s) => s
  | some (Value.int n) => toString n
  | some (Value.bool b) => if b then "True" else "False"
  | some Value.null => "None"

/-- Python `str.replace` scanning: at a match of `p :: ps`, emit the
replacement and continue past the matched text; otherwise keep the character
and move one forward (non-overlapping, left to right, all occurrences).
Every step consumes at least one character and one unit of fuel, so fuel
equal to the text's length (as passed by `pyReplace`) is never exhausted;
`replAux_fuel_high` proves the fuel choice irrelevant. -/
def replAux (p : Char) (ps rep : List Char) : Nat → List Char → List Char
  | 0, s => s
  | _ + 1, [] => []
  | fuel + 1, c :: cs =>
    if c = p ∧ ps.isPrefixOf cs then rep ++ replAux p ps rep fuel (cs.drop ps.length)
    else c :: replAux p ps rep fuel cs

theorem replAux_nil (p : Char) (ps rep : List Char) (f : Nat) :
    replAux p ps rep f [] = [] := by
  cases f <;> rfl

/-- Any fuel at least the text's length computes the same replacement: the
fuel in `pyReplace` is an implementation artifact, not part of the modelled
behaviour. -/
theorem replAux_fuel_high (p : Char) (ps rep : List Char) :
    ∀ (n : Nat) (t : List Char), t.length ≤ n → ∀ f g, t.length ≤ f →
      t.length ≤ g → replAux p ps rep f t = replAux p ps rep g t := by
  intro n
  induction n with
  | zero =>
    intro t ht f g hf hg
    have : t = [] := List.length_eq_zero.mp (Nat.le_zero.mp ht)
    subst this
    rw [replAux_nil, replAux_nil]
  | succ n ih =>
    intro t ht f g hf hg
    match t with
    | [] => rw [replAux_nil, replAux_nil]
    | c :: cs =>
      simp only [List.length_cons] at ht hf hg
      obtain ⟨f', rfl⟩ : ∃ f', f = f' + 1 := ⟨f - 1, by omega⟩
      obtain ⟨g', rfl⟩ : ∃ g', g = g' + 1 := ⟨g - 1, by omega⟩
      simp only [replAux]
      by_cases hm : c = p ∧ ps.isPrefixOf cs
      · rw [if_pos hm, if_pos hm]
        have h1 : (cs.drop ps.length).length ≤ n := by simp; omega
        have h2 : (cs.drop ps.length).length ≤ f' := by simp; omega
        have h3 : (cs.drop ps.length).length ≤ g' := by simp; omega
        rw [ih (cs.drop ps.length) h1 f' g' h2 h3]
      · rw [if_neg hm, if_neg hm]
        have h1 : cs.length ≤ n := by omega
        have h2 : cs.length ≤ f' := by omega
        have h3 : cs.length ≤ g' := by omega
        rw [ih cs h1 f' g' h2 h3]

/-- Python `s.replace(pattern, replacement)`.  An empty pattern (never
produced by `format_inspect`, whose patterns start with two braces) inserts
the replacement before every character and at the end, as Python does. -/
def pyReplace (s pattern replacement : String) : String :=
  match pattern.data with
  | [] => String.mk (replacement.data ++ s.data.flatMap (fun c => c :: replacement.data))
  | p :: ps => String.mk (replAux p ps replacement.data s.data.length s.data)

/-- `format_inspect` (lines 434-446): find every placeholder, resolve each
path independently against the same `attrs`, and replace the canonical
(whitespace-free) placeholder text `\x7b\x7b.path\x7d\x7d` by the rendering. -/
def format_inspect (attrs : Value) (format_str : String) : String :=
  let patterns := scanPlaceholders format_str.toList
  patterns.foldl
    (fun output p =>
      pyReplace output ("\x7b\x7b." ++ p ++ "\x7d\x7d")
        (renderValue (get_nested_value attrs p)))
    format_str

/-- The spec's worked inspection example: `\x7b"Host": \x7b"Arch": "amd64"\x7d\x7d`. -/
def hostData : Value :=
  Value.obj [("Host", Value.obj [("Arch", Value.str "amd64")])]

/-- C7 counterexample: a placeholder written with whitespace around its path,
`arch=\x7b\x7b .Host.Arch \x7d\x7d`, is extracted and resolved, but the substitution
step targets the whitespace-free text `\x7b\x7b.Host.Arch\x7d\x7d`, which does not occur,
so the template is returned verbatim instead of the claimed `arch=amd64`. -/
theorem c7_counterexample :
    format_inspect hostData "arch=\x7b\x7b .Host.Arch \x7d\x7d"
        = "arch=\x7b\x7b .Host.Arch \x7d\x7d"
  ∧ format_inspect hostData "arch=\x7b\x7b .Host.Arch \x7d\x7d" ≠ "arch=amd64" :=
  ⟨rfl, by decide⟩

/--
C7 (amended): `format_inspect` extracts every placeholder matching
`\x7b\x7b.<path>\x7d\x7d` non-greedily with whitespace around the path ignored,
resolves each path independently against the same data, converts the
resolved value to text (composite values as their `json.dumps` form, scalars
as their `str` form, not-found as the literal text `None`) and substitutes
occurrences of the canonical whitespace-free placeholder text
`\x7b\x7b.<path>\x7d\x7d` with that rendering — so a placeholder written with interior
whitespace is resolved but left verbatim, and a template free of
placeholders renders unchanged.  The conjuncts: (1) no placeholders means
the template is returned unchanged; (2) the spec's exact-case example;
(3) the case-insensitive example; (4) a not-found path renders as `None`;
(5) a composite value renders in serialized form; (6) a whitespace-laden
placeholder is left verbatim.
-/
theorem c7_format_inspect_rendering :
    (∀ data t, scanPlaceholders t.toList = [] → format_inspect data t = t)
  ∧ format_inspect hostData "arch=\x7b\x7b.Host.Arch\x7d\x7d" = "arch=amd64"
  ∧ format_inspect hostData "arch=\x7b\x7b.host.arch\x7d\x7d" = "arch=amd64"
  ∧ format_inspect hostData "x=\x7b\x7b.missing\x7d\x7d" = "x=None"
  ∧ format_inspect (Value.obj [("L", Value.arr [Value.int 1, Value.int 2])])
      "v=\x7b\x7b.L\x7d\x7d" = "v=[1, 2]"
  ∧ format_inspect hostData "arch=\x7b\x7b .Host.Arch \x7d\x7d"
      = "arch=\x7b\x7b .Host.Arch \x7d\x7d" := by
  refine ⟨?_, rfl, rfl, rfl, rfl, rfl⟩
  intro data t h
  simp only [format_inspect]
  rw [h]
  rfl

/-- Witness for C7: the hypothesis of the first conjunct of
`c7_format_inspect_rendering` discharged at a concrete placeholder-free
template. -/
theorem c7_witness :
    format_inspect hostData "no placeholders here" = "no placeholders here" :=
  c7_format_inspect_rendering.1 hostData "no placeholders here" (by rfl)

/-!
## The resource constraint translator (lines 279-280)

```python
if cpus:
    run_params["nano_cpus"] = int(cpus * 1e9)
```

`cpus` is a Python float; floats are rational numbers, so the translation is
modelled exactly over `ℚ`.  Python `int()` truncates toward zero, which for
the positive CPU shares of interest is the floor — not `round`.
-/

/-- Python `int()` on an exact numeric value: truncation toward zero. -/
def pyInt (q : ℚ) : Int := if 0 ≤ q then ⌊q⌋ else ⌈q⌉

/-- Line 280: the engine-native nano-CPU quota `int(cpus * 1e9)`, present in
the run parameters only when `cpus` is truthy (nonzero). -/
def nano_cpus (cpus : ℚ) : Option Int :=
  if cpus ≠ 0 then some (pyInt (cpus * 1000000000)) else none

/-- The spec's formula for the same quantity: `round(cpus * 1e9)`. -/
def nanoCpusSpec (cpus : ℚ) : Int := round (cpus * 1000000000)

/-!
## The execution orchestrator: `run_container` (lines 217-334)

The embedded control flow, read off the source:

```python
try:
    imageContainer = self.client.images.get(image)      # raises ImageNotFound
    run_params = \x7b ... \x7d                               # constraint translation
    containerImage = self.client.containers.run(image=imageContainer, **run_params)
    containerImage.wait()                               # no timeout argument
    containerImage.reload()
    logs = [log.decode('utf-8') for log in containerImage.logs()]
    containerImage.reload()
    exit_code = containerImage.attrs.get('State', \x7b\x7d).get('ExitCode', -1)
    if containerImage.status == "exited" and exit_code == 0:
        self._output_success(\x7b ... \x7d)
        if auto_remove: containerImage.remove()
        sys.exit(0)
    else:
        self._output_error("Container ... failed with exit code ...")
        if auto_remove: containerImage.remove()
        sys.exit(1)
except ImageNotFound:
    self._output_error("Image ... does not exist. Pull or build it first.")
    sys.exit(1)
except Exception as e:
    self._output_error("Failed to run container: " + str(e))
    sys.exit(1)
```

The name-collision precondition (lines 254-257) and the call to
`_wait_for_container_exit` (line 300) are commented out in the source; the
embedding reflects the live code.  The `timeout` parameter is accepted and
never read, exactly as in the source.  The engine is modelled by what each
call observably does: whether the image lookup succeeds, whether create+start
is rejected (a supplied name already in use is rejected by the engine with a
conflict error), how long the container runs before `wait()` returns, the
status/exit code/error/logs it then reports, and whether the
wait/reload/log-fetch step or the remove step raises.  A run with
`detach=True` (the CLI's only mode) is modelled; transport failures of
`images.get` other than `ImageNotFound` are not modelled.
-/

/-- The `"image"` field of the success payload:
`containerImage.image.tags if containerImage.image else image`. -/
inductive ImgField where
  | tags (l : List String)
  | ref (s : String)
deriving DecidableEq, Repr

/-- The dictionary passed to `_output_success` on the `Completed` path
(lines 311-319). -/
structure RunPayload where
  container_id : String
  name : String
  status : String
  exit_code : Int
  image : ImgField
  auto_remove : Bool
  logs : List String
deriving DecidableEq, Repr

/-- One emitted output of `run_container`, in emission order.  The error
constructors carry the data interpolated into the Python f-strings:
`failedMsg n e l err` stands for
`"Container '<n>' failed with exit code <e>,logs:<l>,error: <err>"`,
`imageMissing i` for `"Image '<i>' does not exist. Pull or build it first."`,
and `runFailed m` for `"Failed to run container: <m>"`. -/
inductive RunOutput where
  | successPayload (p : RunPayload)
  | failedMsg (name : String) (exit_code : Int) (logs : List String) (stateError : String)
  | imageMissing (image : String)
  | runFailed (msg : String)
deriving DecidableEq, Repr

/-- The engine-side behaviour of the one container a run creates. -/
structure EngineContainer where
  cid : String
  cname : String
  /-- Seconds until the container reaches a terminal phase: how long the
  engine's `wait()` call blocks. -/
  runTime : Nat
  /-- `containerImage.status` after the wait and reloads. -/
  statusAfterWait : String
  /-- `attrs['State']['ExitCode']`, absent when the engine reports none. -/
  exitCode : Option Int
  /-- `attrs['State']['Error']`, `""` when absent (the `.get` default). -/
  stateError : String
  logs : List String
  /-- `containerImage.image.tags`, when the engine reports a source image. -/
  imageTags : Option (List String)
  /-- Whether the wait/reload/log-fetch step raises an engine error. -/
  waitRaises : Bool
  waitErrMsg : String
  /-- Whether `containerImage.remove()` raises an engine error. -/
  removeRaises : Bool
  removeErrMsg : String
deriving DecidableEq, Repr

/-- The engine as `run_container` observes it. -/
structure Engine where
  /-- Whether `images.get(image)` succeeds (else it raises `ImageNotFound`). -/
  imageExists : Bool
  /-- Container names already in use engine-side; `containers.run` rejects a
  create that reuses one, with `collisionMsg`. -/
  usedNames : List String
  collisionMsg : String
  /-- Whether `containers.run` is rejected for another reason. -/
  createRejects : Bool
  createErrMsg : String
  container : EngineContainer
deriving DecidableEq, Repr

/-- What the engine's `containers.run` does for this request: `some msg` when
it raises, `none` when it creates and starts the container. -/
def createError (eng : Engine) (name : Option String) : Option String :=
  match name with
  | some n =>
    if eng.usedNames.contains n then some eng.collisionMsg
    else if eng.createRejects then some eng.createErrMsg else none
  | none => if eng.createRejects then some eng.createErrMsg else none

/-- Everything observable about one `run_container` invocation. -/
structure RunTrace where
  /-- The JSON outputs emitted, in order. -/
  outputs : List RunOutput
  /-- The argument of the final `sys.exit`. -/
  exitStatus : Nat
  /-- How many times `containerImage.remove()` was invoked. -/
  removeCalls : Nat
  /-- Whether the create+start operation was issued to the engine. -/
  createCalled : Bool
  /-- Seconds spent blocked in `containerImage.wait()`. -/
  waitSeconds : Nat
deriving DecidableEq, Repr

/-- The payload's `"image"` field for a given request and container. -/
def imgFieldOf (image : String) (c : EngineContainer) : ImgField :=
  match c.imageTags with
  | some ts => ImgField.tags ts
  | none => ImgField.ref image

/-- `run_container` (lines 217-334).  `timeout` is accepted and ignored, as
in the source, whose `_wait_for_container_exit(containerImage, timeout,
auto_remove)` call is commented out in favour of a bare
`containerImage.wait()`. -/
def run_container (image : String) (name : Option String) (auto_remove : Bool)
    (timeout : Option Nat) (eng : Engine) : RunTrace :=
  if eng.imageExists = false then
    ⟨[RunOutput.imageMissing image], 1, 0, false, 0⟩
  else
    match createError eng name with
    | some msg => ⟨[RunOutput.runFailed msg], 1, 0, true, 0⟩
    | none =>
      let c := eng.container
      if c.waitRaises then
        ⟨[RunOutput.runFailed c.waitErrMsg], 1, 0, true, c.runTime⟩
      else
        let exit_code := c.exitCode.getD (-1)
        if c.statusAfterWait = "exited" ∧ exit_code = 0 then
          let payload : RunPayload :=
            ⟨c.cid, c.cname, c.statusAfterWait, exit_code, imgFieldOf image c,
             auto_remove, c.logs⟩
          if auto_remove then
            if c.removeRaises then
              ⟨[RunOutput.successPayload payload,
                RunOutput.runFailed c.removeErrMsg], 1, 1, true, c.runTime⟩
            else
              ⟨[RunOutput.successPayload payload], 0, 1, true, c.runTime⟩
          else
            ⟨[RunOutput.successPayload payload], 0, 0, true, c.runTime⟩
        else
          let failOut := RunOutput.failedMsg c.cname exit_code c.logs c.stateError
          if auto_remove then
            if c.removeRaises then
              ⟨[failOut, RunOutput.runFailed c.removeErrMsg], 1, 1, true, c.runTime⟩
            else
              ⟨[failOut], 1, 1, true, c.runTime⟩
          else
            ⟨[failOut], 1, 0, true, c.runTime⟩


/-!
## Concrete engine scenarios used by the claim theorems
-/

/-- A well-behaved engine container: runs briefly, exits with code 0. -/
def idleContainer : EngineContainer :=
  { cid := "abc123", cname := "job", runTime := 1, statusAfterWait := "exited",
    exitCode := some 0, stateError := "", logs := [],
    imageTags := some ["busybox:latest"],
    waitRaises := false, waitErrMsg := "",
    removeRaises := false, removeErrMsg := "" }

/-- An engine whose container runs for 100 seconds and then exits cleanly. -/
def engSlow : Engine :=
  { imageExists := true, usedNames := [], collisionMsg := "",
    createRejects := false, createErrMsg := "",
    container := { idleContainer with runTime := 100, logs := ["done"] } }

/-- An engine that creates the container but then fails the
wait/reload/log-fetch step. -/
def engWaitRaise : Engine :=
  { engSlow with
    container :=
      { idleContainer with
        waitRaises := true
        waitErrMsg := "reload failed" } }

/-- An engine on which the name `web` is already taken, so create+start is
rejected with a conflict error. -/
def engCollision : Engine :=
  { imageExists := true, usedNames := ["web"],
    collisionMsg := "container name web is already in use",
    createRejects := false, createErrMsg := "", container := idleContainer }

/-- An engine whose container completes with exit code 0 but whose remove
operation fails. -/
def engRemoveFail : Engine :=
  { engSlow with
    container :=
      { idleContainer with
        logs := ["out"]
        removeRaises := true
        removeErrMsg := "remove conflict" } }

/-- An engine whose container reaches the terminal phase `stopped` with exit
code 0. -/
def engStopped0 : Engine :=
  { engSlow with
    container :=
      { idleContainer with
        statusAfterWait := "stopped"
        logs := ["out"] } }

/-- An engine whose container is killed and exits with code 137. -/
def eng137 : Engine :=
  { engSlow with
    container :=
      { idleContainer with
        exitCode := some 137
        logs := ["killed"]
        stateError := "OOM killed" } }

/-!
## The dead waiting helper `_wait_for_container_exit` (lines 89-130)

```python
while True:
    container.reload()
    status = container.status
    if status in ['exited', 'stopped', 'dead']:
        return True
    if timeout and (time.time() - start_time) >= timeout:
        self._output_error("... exceeded timeout ...")
        return False
    time.sleep(0.5)
```

The helper polls every 0.5 seconds, so the poll at iteration `k` happens at
elapsed time `k/2` seconds and the timeout test `elapsed >= timeout` holds
exactly when `2 * timeout ≤ k`.  The loop is a genuine `while True`, so the
embedding returns `none` when the given number of iterations does not reach
an exit; `c1` shows the helper would have honoured a nonzero timeout, while
the live code never calls it (line 300 is commented out).
-/

/-- `status in ['exited', 'stopped', 'dead']` (line 109). -/
def isTerminalStatus (s : String) : Bool :=
  s = "exited" ∨ s = "stopped" ∨ s = "dead"

/-- Python truthiness of the `Optional[int]` timeout: `None` and `0` are
falsy (`if timeout and ...`). -/
def timeoutTruthy : Option Nat → Bool
  | none => false
  | some n => n ≠ 0

/-- The helper's poll loop: `statusAt k` is the status the `k`-th reload
observes, the first argument is the number of iterations still allowed, and
`none` means the loop is still running after that many iterations. -/
def waitLoop (statusAt : Nat → String) (timeout : Option Nat) :
    Nat → Nat → Option Bool
  | 0, _ => none
  | fuel + 1, k =>
    if isTerminalStatus (statusAt k) then some true
    else if timeoutTruthy timeout ∧ 2 * timeout.getD 0 ≤ k then some false
    else waitLoop statusAt timeout fuel (k + 1)

theorem waitLoop_times_out_aux (statusAt : Nat → String) (t : Nat) (ht : 0 < t) :
    ∀ fuel k, (∀ j, k ≤ j → j ≤ 2 * t → isTerminalStatus (statusAt j) = false) →
      2 * t + 1 - k ≤ fuel → k ≤ 2 * t →
      waitLoop statusAt (some t) fuel k = some false := by
  intro fuel
  induction fuel with
  | zero => intro k hs hf hk; omega
  | succ fuel ih =>
    intro k hs hf hk
    have hnt : isTerminalStatus (statusAt k) = false := hs k (Nat.le_refl k) hk
    rw [waitLoop, hnt]
    simp only [Bool.false_eq_true, if_false]
    by_cases hend : 2 * t ≤ k
    · have : timeoutTruthy (some t) ∧ 2 * (some t).getD 0 ≤ k := by
        refine ⟨?_, by simpa using hend⟩
        simp [timeoutTruthy]
        omega
      rw [if_pos this]
    · rw [if_neg (by simp [timeoutTruthy]; omega)]
      exact ih (k + 1) (fun j hj1 hj2 => hs j (by omega) hj2) (by omega) (by omega)

/--
C1 (code-bug evidence): the claim says a nonzero wait timeout that elapses
before the container exits makes the orchestrator stop waiting and produce a
timed-out outcome.  The live code ignores the timeout entirely:
(1) `run_container`'s result does not depend on the timeout argument at all;
(2) with a 5-second timeout and a container that runs for 100 seconds, the
run blocks in `wait()` for the full 100 seconds; (3) the outcome is the
ordinary success payload, never a timed-out variant (the trace has no such
output anywhere); (4) the repository's own helper `_wait_for_container_exit`
would have returned `False` within one poll interval after a nonzero timeout
`t` (at most `2t+1` half-second polls) whenever no terminal phase is
observed, but its call site (line 300) is commented out.
-/
theorem c1_run_container_ignores_timeout :
    (∀ image name auto_remove eng t1 t2,
        run_container image name auto_remove t1 eng
          = run_container image name auto_remove t2 eng)
  ∧ (run_container "busybox:latest" none true (some 5) engSlow).waitSeconds = 100
  ∧ (run_container "busybox:latest" none true (some 5) engSlow).outputs
      = [RunOutput.successPayload
          ⟨"abc123", "job", "exited", 0, ImgField.tags ["busybox:latest"], true,
           ["done"]⟩]
  ∧ (∀ statusAt t, 0 < t →
        (∀ j, j ≤ 2 * t → isTerminalStatus (statusAt j) = false) →
        waitLoop statusAt (some t) (2 * t + 1) 0 = some false) := by
  refine ⟨?_, rfl, rfl, ?_⟩
  · intro image name auto_remove eng t1 t2
    rfl
  · intro statusAt t ht hs
    exact waitLoop_times_out_aux statusAt t ht (2 * t + 1) 0
      (fun j _ hj => hs j hj) (by omega) (by omega)

/-- C2 counterexample: a run with `auto_remove` set whose container is
created but whose wait/reload/log-fetch step then raises takes the generic
exception path, which contains no cleanup — the engine's remove operation is
never invoked even though a container handle exists, refuting "exactly once
on every terminal path". -/
theorem c2_counterexample :
    (run_container "busybox:latest" none true (some 5) engWaitRaise).createCalled
        = true
  ∧ (run_container "busybox:latest" none true (some 5) engWaitRaise).removeCalls
        = 0
  ∧ (run_container "busybox:latest" none true (some 5) engWaitRaise).outputs
        = [RunOutput.runFailed "reload failed"] :=
  ⟨rfl, rfl, rfl⟩

/--
C2 (amended): with `auto_remove` set, the orchestrator invokes the engine's
remove operation exactly once on the two classification paths it implements
— success and failure, including when the remove itself fails — and never
when precondition checks fail before creation (image missing) or when the
engine rejects the create; but when the engine fails between creation and
classification (the wait/reload/log-fetch step raises), remove is not
invoked at all, and no timed-out terminal path exists.
-/
theorem c2_cleanup_exactly_once :
    (∀ image name t eng, eng.imageExists = true → createError eng name = none →
        eng.container.waitRaises = false →
        (run_container image name true t eng).removeCalls = 1)
  ∧ (∀ image name t eng, eng.imageExists = false →
        (run_container image name true t eng).removeCalls = 0
        ∧ (run_container image name true t eng).createCalled = false)
  ∧ (∀ image name t eng msg, eng.imageExists = true →
        createError eng name = some msg →
        (run_container image name true t eng).removeCalls = 0)
  ∧ (∀ image name t eng, eng.imageExists = true → createError eng name = none →
        eng.container.waitRaises = true →
        (run_container image name true t eng).removeCalls = 0
        ∧ (run_container image name true t eng).createCalled = true) := by
  refine ⟨?_, ?_, ?_, ?_⟩
  · intro image name t eng h1 h2 h3
    simp [run_container, h1, h2, h3]
    split_ifs <;> rfl
  · intro image name t eng h1
    simp [run_container, h1]
  · intro image name t eng msg h1 h2
    simp [run_container, h1, h2]
  · intro image name t eng h1 h2 h3
    simp [run_container, h1, h2, h3]

/-- Witness for C2: the hypotheses of `c2_cleanup_exactly_once` discharged
at concrete engines. -/
theorem c2_witness :
    (run_container "busybox:latest" none true (some 5) engSlow).removeCalls = 1
  ∧ (run_container "busybox:latest" none true (some 5)
        { engSlow with imageExists := false }).removeCalls = 0 :=
  ⟨c2_cleanup_exactly_once.1 "busybox:latest" none (some 5) engSlow rfl rfl rfl,
   (c2_cleanup_exactly_once.2.1 "busybox:latest" none (some 5)
      { engSlow with imageExists := false } rfl).1⟩

/-- C3 counterexample: a run whose supplied name `web` is already in use
still issues the create+start operation to the engine (`createCalled`), and
the rejection surfaces as the generic `Failed to run container: ...` error,
not as a precondition failure emitted before any engine call. -/
theorem c3_counterexample :
    (run_container "busybox:latest" (some "web") true (some 5)
        engCollision).createCalled = true
  ∧ (run_container "busybox:latest" (some "web") true (some 5)
        engCollision).outputs
      = [RunOutput.runFailed "container name web is already in use"] :=
  ⟨rfl, rfl⟩

/--
C3 (amended): a run whose supplied container name is already in use is not
short-circuited by any precondition check: constraint translation and the
create+start operation are performed, the engine's conflict rejection is
reported as the generic `Failed to run container: <engine message>` error
with process exit status 1, no removal happens, and no
`PreconditionFailed("name collision")` outcome exists in the code.
-/
theorem c3_name_collision_reaches_engine :
    ∀ image n ar t eng, eng.imageExists = true →
      eng.usedNames.contains n = true →
      run_container image (some n) ar t eng
        = ⟨[RunOutput.runFailed eng.collisionMsg], 1, 0, true, 0⟩ := by
  intro image n ar t eng h1 h2
  simp only [run_container, h1, createError, h2]
  rfl

/-- Witness for C3: the hypotheses of `c3_name_collision_reaches_engine`
discharged at the concrete colliding engine. -/
theorem c3_witness :
    run_container "busybox:latest" (some "web") true (some 5) engCollision
      = ⟨[RunOutput.runFailed "container name web is already in use"],
         1, 0, true, 0⟩ :=
  c3_name_collision_reaches_engine "busybox:latest" "web" true (some 5)
    engCollision rfl rfl

/-- Toggle whether the created container's remove operation fails. -/
def withRemoveRaises (eng : Engine) (b : Bool) : Engine :=
  { eng with container := { eng.container with removeRaises := b } }

theorem wrr_imageExists (eng : Engine) (b : Bool) :
    (withRemoveRaises eng b).imageExists = eng.imageExists := rfl

theorem wrr_waitRaises (eng : Engine) (b : Bool) :
    (withRemoveRaises eng b).container.waitRaises
      = eng.container.waitRaises := rfl

theorem wrr_waitErrMsg (eng : Engine) (b : Bool) :
    (withRemoveRaises eng b).container.waitErrMsg
      = eng.container.waitErrMsg := rfl

theorem wrr_status (eng : Engine) (b : Bool) :
    (withRemoveRaises eng b).container.statusAfterWait
      = eng.container.statusAfterWait := rfl

theorem wrr_exitCode (eng : Engine) (b : Bool) :
    (withRemoveRaises eng b).container.exitCode
      = eng.container.exitCode := rfl

theorem wrr_cid (eng : Engine) (b : Bool) :
    (withRemoveRaises eng b).container.cid = eng.container.cid := rfl

theorem wrr_cname (eng : Engine) (b : Bool) :
    (withRemoveRaises eng b).container.cname = eng.container.cname := rfl

theorem wrr_logs (eng : Engine) (b : Bool) :
    (withRemoveRaises eng b).container.logs = eng.container.logs := rfl

theorem wrr_stateError (eng : Engine) (b : Bool) :
    (withRemoveRaises eng b).container.stateError
      = eng.container.stateError := rfl

theorem wrr_removeErrMsg (eng : Engine) (b : Bool) :
    (withRemoveRaises eng b).container.removeErrMsg
      = eng.container.removeErrMsg := rfl

theorem wrr_removeRaises (eng : Engine) (b : Bool) :
    (withRemoveRaises eng b).container.removeRaises = b := rfl

theorem wrr_runTime (eng : Engine) (b : Bool) :
    (withRemoveRaises eng b).container.runTime = eng.container.runTime := rfl

theorem wrr_imgFieldOf (image : String) (eng : Engine) (b : Bool) :
    imgFieldOf image (withRemoveRaises eng b).container
      = imgFieldOf image eng.container := rfl

theorem createError_withRemoveRaises (eng : Engine) (b : Bool)
    (name : Option String) :
    createError (withRemoveRaises eng b) name = createError eng name := by
  cases name <;> rfl

/-- C4 counterexample: a run that completes with exit code 0 but whose
cleanup remove fails emits the success payload and then, from the generic
exception handler, a fatal `Failed to run container: ...` error, and exits
with process status 1 instead of the already-decided success status 0 — the
cleanup failure is not a secondary, non-fatal warning. -/
theorem c4_counterexample :
    (run_container "busybox:latest" none true (some 5) engRemoveFail).outputs
      = [RunOutput.successPayload
          ⟨"abc123", "job", "exited", 0, ImgField.tags ["busybox:latest"], true,
           ["out"]⟩,
         RunOutput.runFailed "remove conflict"]
  ∧ (run_container "busybox:latest" none true (some 5) engRemoveFail).exitStatus
      = 1
  ∧ (run_container "busybox:latest" none true (some 5)
        (withRemoveRaises engRemoveFail false)).exitStatus = 0 :=
  ⟨rfl, rfl, rfl⟩

/--
C4 (amended): when cleanup fails on a run that reached classification, the
already-emitted outcome payload (`Completed` or `Failed`) is unchanged — the
trace is the same output sequence with one `Failed to run container:
<remove error>` message appended — and remove is still invoked exactly once;
but the failure is not a mere logged warning: it is caught by the generic
exception handler and forces process exit status 1, overriding the zero exit
status a `Completed` outcome otherwise reports.
-/
theorem c4_cleanup_failure_effect (image : String) (name : Option String)
    (t : Option Nat) (eng : Engine) (h1 : eng.imageExists = true)
    (h2 : createError eng name = none)
    (h3 : eng.container.waitRaises = false) :
    (run_container image name true t (withRemoveRaises eng true)).outputs
      = (run_container image name true t (withRemoveRaises eng false)).outputs
        ++ [RunOutput.runFailed eng.container.removeErrMsg]
  ∧ (run_container image name true t (withRemoveRaises eng true)).exitStatus = 1
  ∧ (run_container image name true t (withRemoveRaises eng false)).exitStatus
      = (if eng.container.statusAfterWait = "exited"
            ∧ eng.container.exitCode.getD (-1) = 0 then 0 else 1)
  ∧ (run_container image name true t (withRemoveRaises eng true)).removeCalls
      = 1 := by
  refine ⟨?_, ?_, ?_, ?_⟩ <;>
    simp [run_container, wrr_imageExists, wrr_waitRaises, wrr_status,
          wrr_exitCode, wrr_cid, wrr_cname, wrr_logs, wrr_stateError,
          wrr_removeErrMsg, wrr_removeRaises, wrr_runTime, wrr_imgFieldOf,
          createError_withRemoveRaises, h1, h2, h3] <;>
    split_ifs <;> simp_all

/-- Witness for C4: the hypotheses of `c4_cleanup_failure_effect` discharged
at the concrete engine whose container completes cleanly. -/
theorem c4_witness :
    (run_container "busybox:latest" none true (some 5)
        (withRemoveRaises engSlow true)).outputs
      = (run_container "busybox:latest" none true (some 5)
          (withRemoveRaises engSlow false)).outputs
        ++ [RunOutput.runFailed engSlow.container.removeErrMsg]
  ∧ (run_container "busybox:latest" none true (some 5)
        (withRemoveRaises engSlow true)).exitStatus = 1
  ∧ (run_container "busybox:latest" none true (some 5)
        (withRemoveRaises engSlow false)).exitStatus
      = (if engSlow.container.statusAfterWait = "exited"
            ∧ engSlow.container.exitCode.getD (-1) = 0 then 0 else 1)
  ∧ (run_container "busybox:latest" none true (some 5)
        (withRemoveRaises engSlow true)).removeCalls = 1 :=
  c4_cleanup_failure_effect "busybox:latest" none (some 5) engSlow rfl rfl rfl

/-- C5 counterexample: a container that reaches the terminal phase `stopped`
with exit code 0 is classified as failed (error output, process exit status
1), because the code requires the status to be exactly `exited` in addition
to the zero exit code — refuting "an exit code of 0 classifies the outcome
as Completed" for terminal phases other than `exited`. -/
theorem c5_counterexample :
    (run_container "busybox:latest" none true (some 5) engStopped0).outputs
      = [RunOutput.failedMsg "job" 0 ["out"] ""]
  ∧ (run_container "busybox:latest" none true (some 5) engStopped0).exitStatus
      = 1 :=
  ⟨rfl, rfl⟩

/--
C5 (amended): once the wait and log capture succeed, an exit code of 0
together with the observed status being exactly `exited` classifies the
outcome as Completed with exit code 0 and the full captured log sequence;
every other combination classifies as Failed carrying the exit code (an
absent exit code is treated as -1), the logs, and the engine-reported error
string — in particular a nonzero exit code, an absent exit code, or a
terminal status other than `exited` even with exit code 0; a container
exiting with code 137 yields Failed with exit code 137.
-/
theorem c5_exit_code_classification :
    (∀ image name ar t eng, eng.imageExists = true →
        createError eng name = none → eng.container.waitRaises = false →
        eng.container.statusAfterWait = "exited" →
        eng.container.exitCode = some 0 →
        (run_container image name ar t eng).outputs.head?
          = some (RunOutput.successPayload
              ⟨eng.container.cid, eng.container.cname, "exited", 0,
               imgFieldOf image eng.container, ar, eng.container.logs⟩))
  ∧ (∀ image name ar t eng k, eng.imageExists = true →
        createError eng name = none → eng.container.waitRaises = false →
        eng.container.exitCode = some k → k ≠ 0 →
        (run_container image name ar t eng).outputs.head?
          = some (RunOutput.failedMsg eng.container.cname k
              eng.container.logs eng.container.stateError)
        ∧ (run_container image name ar t eng).exitStatus = 1)
  ∧ (∀ image name ar t eng, eng.imageExists = true →
        createError eng name = none → eng.container.waitRaises = false →
        eng.container.exitCode = none →
        (run_container image name ar t eng).outputs.head?
          = some (RunOutput.failedMsg eng.container.cname (-1)
              eng.container.logs eng.container.stateError))
  ∧ (∀ image name ar t eng, eng.imageExists = true →
        createError eng name = none → eng.container.waitRaises = false →
        eng.container.statusAfterWait ≠ "exited" →
        (run_container image name ar t eng).outputs.head?
          = some (RunOutput.failedMsg eng.container.cname
              (eng.container.exitCode.getD (-1)) eng.container.logs
              eng.container.stateError))
  ∧ ((run_container "busybox:latest" none true (some 5) eng137).outputs
        = [RunOutput.failedMsg "job" 137 ["killed"] "OOM killed"]
      ∧ (run_container "busybox:latest" none true (some 5) eng137).exitStatus
          = 1) := by
  refine ⟨?_, ?_, ?_, ?_, rfl, rfl⟩
  · intro image name ar t eng h1 h2 h3 h4 h5
    simp [run_container, h1, h2, h3, h4, h5]
    split_ifs <;> rfl
  · intro image name ar t eng k h1 h2 h3 h4 hk
    simp [run_container, h1, h2, h3, h4, hk]
    split_ifs <;> simp_all
  · intro image name ar t eng h1 h2 h3 h4
    simp [run_container, h1, h2, h3, h4]
    split_ifs <;> simp_all
  · intro image name ar t eng h1 h2 h3 h4
    simp [run_container, h1, h2, h3, h4]
    split_ifs <;> simp_all

/-- Witness for C5: the hypotheses of `c5_exit_code_classification`
discharged at concrete engines for the Completed, nonzero-Failed and
absent-exit-code cases. -/
theorem c5_witness :
    (run_container "busybox:latest" none true (some 5) engSlow).outputs.head?
      = some (RunOutput.successPayload
          ⟨"abc123", "job", "exited", 0, ImgField.tags ["busybox:latest"], true,
           ["done"]⟩)
  ∧ (run_container "busybox:latest" none true (some 5) eng137).outputs.head?
      = some (RunOutput.failedMsg "job" 137 ["killed"] "OOM killed") := by
  constructor
  · exact c5_exit_code_classification.1 "busybox:latest" none true (some 5)
      engSlow rfl rfl rfl rfl rfl
  · exact (c5_exit_code_classification.2.1 "busybox:latest" none true (some 5)
      eng137 137 rfl rfl rfl rfl (by decide)).1

/-- C8 counterexample: at the exact rational `cpus = 3/2000000000` the
product `cpus * 1e9` is `3/2`; Python `int()` truncates it to 1 while the
spec's `round` gives 2, so the translator does not compute
`round(cpus * 1e9)`. -/
theorem c8_counterexample :
    nano_cpus (3 / 2000000000) = some 1
  ∧ nanoCpusSpec (3 / 2000000000) = 2 := by
  constructor
  · rw [nano_cpus, if_pos (by norm_num)]
    norm_num [pyInt]
  · rw [nanoCpusSpec]
    norm_num [round_eq]

/--
C8 (amended): for every CPU share `cpus > 0` the translator produces the
engine-native nano-CPU quota `int(cpus * 1e9)`, i.e. the product truncated
toward zero (`⌊cpus * 1e9⌋` for positive shares) — not `round(cpus * 1e9)`,
from which it differs whenever the fractional part of the product is at
least one half.
-/
theorem c8_nano_cpus_truncates (cpus : ℚ) (h : 0 < cpus) :
    nano_cpus cpus = some ⌊cpus * 1000000000⌋ := by
  have h0 : cpus ≠ 0 := ne_of_gt h
  have hge : (0 : ℚ) ≤ cpus * 1000000000 := by positivity
  simp [nano_cpus, pyInt, h0, hge]

/-- Witness for C8: the hypothesis of `c8_nano_cpus_truncates` discharged at
the CLI's default share of half a core. -/
theorem c8_witness :
    (0 : ℚ) < 1 / 2
  ∧ nano_cpus (1 / 2) = some ⌊(1 / 2 : ℚ) * 1000000000⌋ :=
  ⟨by norm_num, c8_nano_cpus_truncates (1 / 2) (by norm_num)⟩

/-!
## Image operations: `image_exists` (lines 53-59), `delete_image`
(lines 385-398), `build_image` (lines 156-215)

```python
def image_exists(self, image_tag: str) -> bool:
    try:
        self.client.images.get(image_tag)
        self._output_success(True)
    except Exception:
        self._output_error("Image does not exist")
```

Despite the `-> bool` annotation, no branch returns, so the function always
returns Python `None` — modelled as an `Option Bool` that is always `none`.
-/

/-- One reporter output: `_output_success` prints
`\x7b"success": true, "data": <data>\x7d` to stdout, `_output_error` prints
`\x7b"success": false, "error": <msg>\x7d` to stderr. -/
inductive CliOut where
  | success (data : Value)
  | error (msg : String)

/-- `image_exists`: (the Python return value, the outputs it prints).
`imageInEngine` is whether `images.get` succeeds. -/
def image_exists (imageInEngine : Bool) : Option Bool × List CliOut :=
  if imageInEngine then (none, [CliOut.success (Value.bool true)])
  else (none, [CliOut.error "Image does not exist"])

/-- The observable trace of one `delete_image` call. -/
structure DeleteImageTrace where
  outputs : List CliOut
  /-- Whether the engine's `images.remove` was invoked. -/
  removeCalled : Bool

/-- `delete_image` (lines 385-398): guarded by
`if not self.image_exists(image_tag)`, i.e. Python truthiness of the helper's
return value.  `removeRaises`/`removeErrMsg` model the engine's
`images.remove` failing (the `except` branch). -/
def delete_image (imageInEngine removeRaises : Bool) (removeErrMsg : String)
    (image_tag : String) (force : Bool) : DeleteImageTrace :=
  let r := image_exists imageInEngine
  if pyTruthy r.1 = false then
    ⟨r.2 ++ [CliOut.error ("Image '" ++ image_tag ++ "' does not exist.")],
     false⟩
  else if removeRaises then
    ⟨r.2 ++ [CliOut.error ("Failed to delete image: " ++ removeErrMsg)], true⟩
  else
    ⟨r.2 ++ [CliOut.success (Value.obj
        [("image", Value.str image_tag),
         ("message", Value.str "Image deleted successfully")])], true⟩

/--
C9: for every image tag given to `delete_image` — including tags whose image
does exist in the engine — the operation emits the error message
`Image '<tag>' does not exist.` as its final output and never invokes the
engine's image-remove call, because its guard `image_exists` always returns
Python `None` (falsy) rather than a boolean.  The conjuncts: (1)
`image_exists` returns `None` on both of its paths; (2) `delete_image` never
calls remove and always ends with the does-not-exist error; (3) on an engine
that does have the image, the full output is the helper's `success: true`
print followed by the contradictory does-not-exist error.
-/
theorem c9_delete_image_never_removes :
    (∀ b, (image_exists b).1 = none)
  ∧ (∀ imageInEngine removeRaises removeErrMsg image_tag force,
      (delete_image imageInEngine removeRaises removeErrMsg image_tag
          force).removeCalled = false
      ∧ (delete_image imageInEngine removeRaises removeErrMsg image_tag
          force).outputs.getLast?
        = some (CliOut.error ("Image '" ++ image_tag ++ "' does not exist.")))
  ∧ (∀ removeRaises removeErrMsg image_tag force,
      (delete_image true removeRaises removeErrMsg image_tag force).outputs
        = [CliOut.success (Value.bool true),
           CliOut.error ("Image '" ++ image_tag ++ "' does not exist.")]) := by
  refine ⟨?_, ?_, ?_⟩
  · intro b
    cases b <;> rfl
  · intro imageInEngine removeRaises removeErrMsg image_tag force
    cases imageInEngine <;> exact ⟨rfl, rfl⟩
  · intro removeRaises removeErrMsg image_tag force
    rfl

/-- One entry of the engine's build-log stream: a dict with a `"stream"`
key, a dict with an `"error"` key, or anything else (skipped by the loop). -/
inductive BuildLog where
  | stream (s : String)
  | err (e : String)
  | other

/-- Python `str.strip()` on ASCII whitespace, applied to each streamed
build-log line. -/
def pyStrip (s : String) : String :=
  String.mk (((s.data.dropWhile (fun c => isPySpace c)).reverse.dropWhile
    (fun c => isPySpace c)).reverse)

/-- The `for log in build_logs` loop of `build_image`: collect stripped
`"stream"` lines, and stop with the first `"error"` entry, whose message
aborts the build report. -/
def processLogs : List BuildLog → List String × Option String
  | [] => ([], none)
  | BuildLog.stream s :: rest =>
    match processLogs rest with
    | (ls, e) => (pyStrip s :: ls, e)
  | BuildLog.err e :: _ => ([], some e)
  | BuildLog.other :: rest => processLogs rest

/-- The engine as `build_image` observes it. -/
structure BuildEngine where
  /-- `self.client.images.exists(tag)`. -/
  tagExists : Bool
  /-- What `get_arch_platform()` reports, used when no platform is given. -/
  archPlatform : String
  /-- Whether `images.build` raises (reported as `Failed to build image`). -/
  buildRaises : Bool
  buildErrMsg : String
  imageId : String
  imageTags : List String
  buildLogs : List BuildLog

/-- The observable trace of one `build_image` call. -/
structure BuildTrace where
  outputs : List CliOut
  /-- Whether the engine's `images.build` was invoked. -/
  buildCalled : Bool

/-- `build_image` (lines 156-215) for a run with a target tag.  An absent or
empty `platform` argument is falsy in Python, so the platform is then
auto-detected. -/
def build_image (tag context_path dockerfile : String)
    (platform : Option String) (eng : BuildEngine) : BuildTrace :=
  if eng.tagExists then
    ⟨[CliOut.success (Value.obj
        [("image", Value.str tag),
         ("message", Value.str "Image already exists")])], false⟩
  else
    let plat :=
      match platform with
      | some p => if p = "" then eng.archPlatform else p
      | none => eng.archPlatform
    if eng.buildRaises then
      ⟨[CliOut.error ("Failed to build image: " ++ eng.buildErrMsg)], true⟩
    else
      match processLogs eng.buildLogs with
      | (_, some e) => ⟨[CliOut.error ("Build failed: " ++ e)], true⟩
      | (logs, none) =>
        ⟨[CliOut.success (Value.obj
            [("image_id", Value.str eng.imageId),
             ("tags", Value.arr (eng.imageTags.map Value.str)),
             ("platform", Value.str plat),
             ("logs", Value.arr (logs.map Value.str))])], true⟩

/--
C10: for every build request whose target tag already names an existing
image in the engine, `build_image` outputs the success payload
`\x7b"image": tag, "message": "Image already exists"\x7d` and returns without
invoking the engine's build operation.
-/
theorem c10_build_short_circuits (tag context_path dockerfile : String)
    (platform : Option String) (eng : BuildEngine)
    (h : eng.tagExists = true) :
    build_image tag context_path dockerfile platform eng
      = ⟨[CliOut.success (Value.obj
            [("image", Value.str tag),
             ("message", Value.str "Image already exists")])], false⟩ := by
  simp [build_image, h]

/-- A build engine that already holds the requested tag. -/
def builtEngine : BuildEngine :=
  { tagExists := true, archPlatform := "linux/amd64", buildRaises := false,
    buildErrMsg := "", imageId := "sha256:deadbeef",
    imageTags := ["myapp:latest"], buildLogs := [] }

/-- Witness for C10: the hypothesis of `c10_build_short_circuits` discharged
at a concrete engine that already has the image. -/
theorem c10_witness :
    build_image "myapp:latest" "." "Dockerfile" none builtEngine
      = ⟨[CliOut.success (Value.obj
            [("image", Value.str "myapp:latest"),
             ("message", Value.str "Image already exists")])], false⟩ :=
  c10_build_short_circuits "myapp:latest" "." "Dockerfile" none builtEngine rfl

end ContainerPub
